import Mathlib

/-!
Shallow embedding of the `Iter<T>` sequence engine (src/unnamed/part_000).

A JS pull source (`Iterator<T>`) is modelled as a list of pull results:
each pull pops the head, and pulling an exhausted list yields
`{value: undefined, done: true}` forever, exactly like a finished JS
generator.  A result's `value` is `none` when the JS value is
`undefined`; `value` and `done` are independent, since a JS iterator may
attach a value to a `done` result (a generator `return v`) or yield
`undefined` with `done = false`.

JS exceptions are modelled with `Except JsError`; the loops of terminal
operations, which genuinely diverge in JS on a dead fused engine whose
`done` flag is false, are modelled with explicit fuel (`none` = the JS
loop did not finish within the fuel).  Generator-based combinators
(`skip_while`, `zip`, `chain`) are evaluated eagerly over the pure
source, which yields the same observable output stream.
-/

namespace Rstd

/-- One result of pulling a JS iterator: `value` is `none` when the
underlying JS value is `undefined`; `done` mirrors the protocol flag. -/
structure SrcRes (V : Type) where
  value : Option V
  done : Bool
deriving DecidableEq

/-- A pull source: the list of results the underlying JS iterator will
produce; pulls past the end give `{value := none, done := true}`. -/
abbrev Src (V : Type) := List (SrcRes V)

variable {V U : Type}

/-- Pull once from a source (`this.#iter.next()`). -/
def srcNext : Src V → SrcRes V × Src V
  | [] => (⟨none, true⟩, [])
  | r :: rest => (r, rest)

/-- The `#fused = { called, dead }` private field. -/
structure Fused where
  called : Bool
  dead : Bool
deriving DecidableEq

/-- The engine: `#iter`, `#done`, `#consumed`, `#fused` of class `Iter<T>`. -/
structure Iter (V : Type) where
  iter : Src V
  done : Bool
  consumed : Bool
  fused : Fused
deriving DecidableEq

/-- The exceptions the engine throws: `ReferenceError` on a consumed
engine (spec: ConsumedError) and `TypeError` on a malformed numeric
argument (spec: InvalidArgument). -/
inductive JsError where
  | consumedError
  | invalidArgument
deriving DecidableEq

/-- `Iter.next` (lines 24-36): throw if consumed; return `undefined`
immediately if `fused.dead`; otherwise pull, set `done`, set
`fused.dead` when `fused.called` and the pulled **value** is
`undefined`, and return the value (or `undefined` when done). -/
def Iter.next (it : Iter V) : Except JsError (Option V × Iter V) :=
  if it.consumed then Except.error JsError.consumedError
  else if it.fused.dead then Except.ok (none, it)
  else
    let r := (srcNext it.iter).1
    Except.ok (if r.done then none else r.value,
      ⟨(srcNext it.iter).2, r.done, it.consumed,
        ⟨it.fused.called, it.fused.called && r.value.isNone⟩⟩)

/-- `Iter.fuse` (lines 354-358): set `fused.called` and return the same
engine. -/
def Iter.fuse (it : Iter V) : Iter V :=
  ⟨it.iter, it.done, it.consumed, ⟨true, it.fused.dead⟩⟩

/-- The values returned by `n` successive `next()` calls (a thrown
error is recorded and leaves the engine unchanged, as the throw happens
before any mutation). -/
def nexts : Nat → Iter V → List (Except JsError (Option V))
  | 0, _ => []
  | n + 1, it =>
    match it.next with
    | Except.error e => Except.error e :: nexts n it
    | Except.ok (v, it2) => Except.ok v :: nexts n it2

/-- The tail of `Iter.peek`'s replacement generator (lines 572-580):
it repeatedly pulls the captured source and yields the pulled `value`
(as a plain yield, so `done = false` outside), stopping after the first
pull whose `done` is set. -/
def peekWrap : Src V → Src V
  | [] => [⟨none, false⟩]
  | r :: rest => ⟨r.value, false⟩ :: (if r.done then [] else peekWrap rest)

/-- `Iter.peek` (lines 567-583): pull once for real (no consumed
check), replace `#iter` with a generator that replays the peeked value
and then drives the old source, and return the peeked value (or
`undefined` when the pull was done). -/
def Iter.peek (it : Iter V) : Option V × Iter V :=
  let p := srcNext it.iter
  if p.1.done then (none, ⟨[], it.done, it.consumed, it.fused⟩)
  else (p.1.value,
    ⟨⟨p.1.value, false⟩ :: peekWrap p.2, it.done, it.consumed, it.fused⟩)

/-- The loop of `advance_by` (lines 56-58): with `rem` iterations left,
return the counter `i` as soon as `done` is observed, else pull and
continue; return `undefined` when all iterations ran. -/
def advanceF (i : Nat) : Nat → Iter V → Except JsError (Option Nat × Iter V)
  | 0, it => Except.ok (none, it)
  | rem + 1, it =>
    if it.done then Except.ok (some i, it)
    else
      match it.next with
      | Except.error e => Except.error e
      | Except.ok (_, it2) => advanceF (i + 1) rem it2

/-- `Iter.advance_by` (lines 53-61): reject negative `n`, then run the
counting loop.  (`n` is an `Int`, so the JS non-integer check is
vacuous here.) -/
def Iter.advance_by (it : Iter V) (n : Int) : Except JsError (Option Nat × Iter V) :=
  if n < 0 then Except.error JsError.invalidArgument
  else advanceF 0 n.toNat it

/-- The skip loop of `nth` (lines 534-536): `k` bare `next()` calls,
discarding the values. -/
def nthSkip : Nat → Iter V → Except JsError (Iter V)
  | 0, it => Except.ok it
  | k + 1, it =>
    match it.next with
    | Except.error e => Except.error e
    | Except.ok (_, it2) => nthSkip k it2

/-- `Iter.nth` (lines 531-539): reject negative `n`, advance `n - 1`
times (so 0 times for both `n = 0` and `n = 1`), then return `next()`. -/
def Iter.nth (it : Iter V) (n : Int) : Except JsError (Option V × Iter V) :=
  if n < 0 then Except.error JsError.invalidArgument
  else
    match nthSkip (n - 1).toNat it with
    | Except.error e => Except.error e
    | Except.ok it2 => it2.next

/-- A well-behaved ("proper") source over a plain list of values: every
pull yields a value with `done = false`, and exhaustion is signalled
only by running out (a value-free `done`).  This is what an ordinary JS
array iterator or generator produces. -/
def props (vs : List (Option V)) : Src V :=
  vs.map (fun v => ⟨v, false⟩)

/-- A fresh engine over a proper source, with all flags cleared except
an arbitrary `done` — the engine `new Iter(...)` builds from a
well-behaved JS source. -/
def pstate (vs : List (Option V)) (d : Bool) : Iter V :=
  ⟨props vs, d, false, ⟨false, false⟩⟩

/-- The lock-step loop of `eq_by` (lines 234-251), with fuel.  The loop
exits when either `done` flag is set; only then are both engines marked
consumed, and the result is `true` iff both are done.  A failing
comparison returns `false` early, leaving both `consumed` flags as they
were. -/
def eq_byF (fuel : Nat) (f : Option V → Option V → Bool) (it ot : Iter V) :
    Option (Except JsError (Bool × Iter V × Iter V)) :=
  if it.done || ot.done then
    some (Except.ok (it.done && ot.done,
      ⟨it.iter, it.done, true, it.fused⟩, ⟨ot.iter, ot.done, true, ot.fused⟩))
  else
    match fuel with
    | 0 => none
    | fuel + 1 =>
      match it.next with
      | Except.error e => some (Except.error e)
      | Except.ok (a, it2) =>
        match ot.next with
        | Except.error e => some (Except.error e)
        | Except.ok (b, ot2) =>
          if f a b then eq_byF fuel f it2 ot2
          else some (Except.ok (false, it2, ot2))

/-- `Iter.eq_by`: run the lock-step loop; the fuel covers every
terminating JS run (the JS loop diverges only on a dead fused engine
whose `done` flag is stuck false, where this returns `none`). -/
def Iter.eq_by (it ot : Iter V) (f : Option V → Option V → Bool) :
    Option (Except JsError (Bool × Iter V × Iter V)) :=
  eq_byF (it.iter.length + ot.iter.length + 1) f it ot

/-- `Iter.eq` (lines 229-232): `eq_by` with the deep-equality
collaborator, which on embedded values is structural equality
(`deepEqual(undefined, v)` is false for defined `v`, matching
`none == some v`). -/
def Iter.eq [BEq V] (it ot : Iter V) :
    Option (Except JsError (Bool × Iter V × Iter V)) :=
  it.eq_by ot (fun a b => a == b)

/-- The lock-step loop of `cmp_by` (lines 143-162), with fuel.  The
comparator returns a JS number modelled as `Option Int`, where `none`
is `NaN` (e.g. arithmetic on `undefined`).  A non-`0` comparator result
returns early — `NaN` as `0`, otherwise its sign — without marking
either engine consumed; exhaustion marks both consumed and applies the
longer-side tie-break. -/
def cmp_byF (fuel : Nat) (c : Option V → Option V → Option Int) (it ot : Iter V) :
    Option (Except JsError (Int × Iter V × Iter V)) :=
  if it.done || ot.done then
    some (Except.ok (if !it.done then 1 else if !ot.done then -1 else 0,
      ⟨it.iter, it.done, true, it.fused⟩, ⟨ot.iter, ot.done, true, ot.fused⟩))
  else
    match fuel with
    | 0 => none
    | fuel + 1 =>
      match it.next with
      | Except.error e => some (Except.error e)
      | Except.ok (a, it2) =>
        match ot.next with
        | Except.error e => some (Except.error e)
        | Except.ok (b, ot2) =>
          if c a b ≠ some 0 then
            some (Except.ok ((match c a b with
              | none => 0
              | some k => Int.sign k), it2, ot2))
          else cmp_byF fuel c it2 ot2

/-- `Iter.cmp_by`: run the lock-step comparison loop with sufficient
fuel for every terminating JS run. -/
def Iter.cmp_by (it ot : Iter V) (c : Option V → Option V → Option Int) :
    Option (Except JsError (Int × Iter V × Iter V)) :=
  cmp_byF (it.iter.length + ot.iter.length + 1) c it ot

/-- The source of the engine `zip` returns (lines 816-825), evaluated
eagerly: each pull pulls both parents and ends as soon as either is
done. -/
def zipSrc : Src V → Src U → Src (Option V × Option U)
  | [], _ => []
  | _ :: _, [] => []
  | a :: as, b :: bs =>
    if a.done || b.done then []
    else ⟨some (a.value, b.value), false⟩ :: zipSrc as bs

/-- `Iter.zip` (lines 811-826): mark both operands consumed immediately
and return the zipped engine together with the two updated operands. -/
def Iter.zip (it : Iter V) (ot : Iter U) :
    Iter (Option V × Option U) × Iter V × Iter U :=
  (⟨zipSrc it.iter ot.iter, false, false, ⟨false, false⟩⟩,
   ⟨it.iter, it.done, true, it.fused⟩, ⟨ot.iter, ot.done, true, ot.fused⟩)

/-- The source of the engine `chain` returns (lines 101-109), evaluated
eagerly: pulls from the first parent until it reports done, then from
the second. -/
def chainSrc : Src V → Src V → Src V
  | [], tb => tb
  | r :: rest, tb => if r.done then tb else r :: chainSrc rest tb

/-- `Iter.chain` (lines 96-110): mark both operands consumed
immediately and return the chained engine together with the two updated
operands. -/
def Iter.chain (it ot : Iter V) : Iter V × Iter V × Iter V :=
  (⟨chainSrc it.iter ot.iter, false, false, ⟨false, false⟩⟩,
   ⟨it.iter, it.done, true, it.fused⟩, ⟨ot.iter, ot.done, true, ot.fused⟩)

/-- The loop of `collect` (lines 164-174), with fuel: push `next()`
while not done, then mark consumed and pop the final pushed value. -/
def collectF : Nat → Iter V → List (Option V) →
    Option (Except JsError (List (Option V) × Iter V))
  | fuel, it, acc =>
    if it.done then
      some (Except.ok (acc.dropLast, ⟨it.iter, it.done, true, it.fused⟩))
    else
      match fuel with
      | 0 => none
      | fuel + 1 =>
        match it.next with
        | Except.error e => some (Except.error e)
        | Except.ok (v, it2) => collectF fuel it2 (acc ++ [v])

/-- `Iter.collect`: run the collecting loop. -/
def Iter.collect (it : Iter V) :
    Option (Except JsError (List (Option V) × Iter V)) :=
  collectF (it.iter.length + 1) it []

/-- The do-while loop of `fold` (lines 324-338), with fuel: each
iteration clears `consumed`, pulls, restores `consumed = true`, and
folds the pulled value unless done. -/
def foldF {A : Type} : Nat → (A → Option V → A) → A → Iter V →
    Option (Except JsError (A × Iter V))
  | 0, _, _, _ => none
  | fuel + 1, f, acc, it =>
    match (⟨it.iter, it.done, false, it.fused⟩ : Iter V).next with
    | Except.error e => some (Except.error e)
    | Except.ok (v, it2) =>
      if it2.done then some (Except.ok (acc, ⟨it2.iter, it2.done, true, it2.fused⟩))
      else foldF fuel f (f acc v) ⟨it2.iter, it2.done, true, it2.fused⟩

/-- `Iter.fold`: run the folding loop. -/
def Iter.fold {A : Type} (it : Iter V) (init : A) (f : A → Option V → A) :
    Option (Except JsError (A × Iter V)) :=
  foldF (it.iter.length + 1) f init it

/-- The loop of `last` (lines 460-466), with fuel: while not done,
shift `[last, item] = [item, next()]`; return `last`.  The `consumed`
flag is never written. -/
def lastF : Nat → Option V → Option V → Iter V →
    Option (Except JsError (Option V × Iter V))
  | fuel, lst, itm, it =>
    if it.done then some (Except.ok (lst, it))
    else
      match fuel with
      | 0 => none
      | fuel + 1 =>
        match it.next with
        | Except.error e => some (Except.error e)
        | Except.ok (v, it2) => lastF fuel itm v it2

/-- `Iter.last`: run the shifting loop starting from two `undefined`s. -/
def Iter.last (it : Iter V) : Option (Except JsError (Option V × Iter V)) :=
  lastF (it.iter.length + 1) none none it

/-- The loop of `all` (lines 66-72), with fuel, after the initial
`next()`: while not done, short-circuit `false` on a failing element,
else pull again; `true` once done.  The `consumed` flag is never
written. -/
def allF : Nat → (Option V → Bool) → Option V → Iter V →
    Option (Except JsError (Bool × Iter V))
  | fuel, f, item, it =>
    if it.done then some (Except.ok (true, it))
    else if !f item then some (Except.ok (false, it))
    else
      match fuel with
      | 0 => none
      | fuel + 1 =>
        match it.next with
        | Except.error e => some (Except.error e)
        | Except.ok (v, it2) => allF fuel f v it2

/-- `Iter.all` (lines 63-73): one initial `next()`, then the loop. -/
def Iter.all (it : Iter V) (f : Option V → Bool) :
    Option (Except JsError (Bool × Iter V)) :=
  match it.next with
  | Except.error e => some (Except.error e)
  | Except.ok (v, it2) => allF (it2.iter.length + 1) f v it2

/-- The first phase of `skip_while`'s generator (lines 693-694): pull
the raw source once, keep pulling while the result is not done and
satisfies the predicate, and return the stopping result plus the
remaining source.  Note it bypasses `next()`, so `done`/`fused` are not
updated. -/
def skipWhilePhase1 (p : Option V → Bool) : Src V → SrcRes V × Src V
  | [] => (⟨none, true⟩, [])
  | r :: rest =>
    if !r.done && p r.value then skipWhilePhase1 p rest else (r, rest)

/-- The emit phase of `skip_while`'s generator (lines 698-706), with
fuel: the usual consumed-toggling drain loop, collecting the yielded
values. -/
def drainF : Nat → Iter V → Option (Except JsError (List (Option V)))
  | 0, _ => none
  | fuel + 1, it =>
    match (⟨it.iter, it.done, false, it.fused⟩ : Iter V).next with
    | Except.error e => some (Except.error e)
    | Except.ok (v, it2) =>
      if it2.done then some (Except.ok [])
      else
        (drainF fuel ⟨it2.iter, it2.done, true, it2.fused⟩).map
          (fun res => res.map (fun l => v :: l))

/-- `Iter.skip_while` (lines 686-709), with the generator evaluated
eagerly: skip via the raw source, then **unconditionally** yield the
stopping result's value (even when that pull was done), then drain the
rest through `next()`.  Returns the engine wrapping the generator's
output stream (`none` when the JS generator would diverge). -/
def Iter.skip_while (it : Iter V) (p : Option V → Bool) : Option (Iter V) :=
  match skipWhilePhase1 p it.iter with
  | (item, rest) =>
    match drainF (rest.length + 1) ⟨rest, it.done, false, it.fused⟩ with
    | none => none
    | some (Except.error _) => none
    | some (Except.ok vals) =>
      some ⟨(item.value :: vals).map (fun v => ⟨v, false⟩),
        false, false, ⟨false, false⟩⟩

/-- The JS comparator `(a, b) => a - b` on embedded values: subtraction
involving `undefined` is `NaN` (`none`). -/
def subCmp : Option Int → Option Int → Option Int
  | some a, some b => some (a - b)
  | _, _ => none

/-- The JS comparator `(a, b) => a < b ? -1 : a > b ? 1 : 0` on
embedded values: every comparison with `undefined` is false, so either
operand being `undefined` gives `0`, never `NaN`. -/
def relCmp : Option Int → Option Int → Option Int
  | some a, some b => some (if a < b then -1 else if b < a then 1 else 0)
  | _, _ => some 0

/-! ### Stream lemmas about `next` -/

/-- `next` on a dead fused, non-consumed engine returns `undefined` and
leaves the engine untouched. -/
theorem next_dead (s : Src V) (d c : Bool) :
    (⟨s, d, false, ⟨c, true⟩⟩ : Iter V).next
      = Except.ok (none, ⟨s, d, false, ⟨c, true⟩⟩) := by
  simp [Iter.next]

/-- Every `next` on a dead fused, non-consumed engine returns
`undefined`, without ever pulling the source. -/
theorem nexts_of_dead (s : Src V) (d c : Bool) :
    ∀ n, nexts n (⟨s, d, false, ⟨c, true⟩⟩ : Iter V)
      = List.replicate n (Except.ok none) := by
  intro n
  induction n with
  | zero => rfl
  | succ m ih => simp [nexts, next_dead, ih, List.replicate_succ]

/-- Every `next` on a non-consumed, non-dead engine over an exhausted
source returns `undefined`. -/
theorem nexts_of_nil (c : Bool) :
    ∀ (n : Nat) (d : Bool),
      nexts n (⟨[], d, false, ⟨c, false⟩⟩ : Iter V)
        = List.replicate n (Except.ok none) := by
  intro n
  induction n with
  | zero => intro d; rfl
  | succ m ih =>
    intro d
    cases c with
    | false => simp [nexts, Iter.next, srcNext, ih, List.replicate_succ]
    | true => simp [nexts, Iter.next, srcNext, nexts_of_dead, List.replicate_succ]

/-- Padding a proper source with one extra `undefined` yield does not
change the values returned by any number of `next` calls, for any
non-consumed, non-dead engine (and any `done` flags on either side):
the padded `undefined` and the exhausted pull both return `undefined`
and set `fused.dead` under exactly the same condition. -/
theorem nexts_pad (vs : List (Option V)) (c : Bool) :
    ∀ (n : Nat) (dL dR : Bool),
      nexts n (⟨props (vs ++ [none]), dL, false, ⟨c, false⟩⟩ : Iter V)
        = nexts n (⟨props vs, dR, false, ⟨c, false⟩⟩ : Iter V) := by
  induction vs with
  | nil =>
    intro n dL dR
    cases n with
    | zero => rfl
    | succ m =>
      cases c with
      | false =>
        simp [nexts, Iter.next, srcNext, props, nexts_of_nil,
          List.replicate_succ]
      | true =>
        simp [nexts, Iter.next, srcNext, props, nexts_of_nil, nexts_of_dead,
          List.replicate_succ]
  | cons v t ih =>
    intro n dL dR
    cases n with
    | zero => rfl
    | succ m =>
      cases hcv : c && v.isNone with
      | false =>
        simpa [nexts, Iter.next, srcNext, props, hcv] using ih m false false
      | true =>
        simp [nexts, Iter.next, srcNext, props, hcv, nexts_of_dead]

/-- `peek`'s wrapping generator, applied to a proper source, yields the
same values followed by one final `undefined`. -/
theorem peekWrap_props (vs : List (Option V)) :
    peekWrap (vs.map (fun v => (⟨v, false⟩ : SrcRes V)))
      = vs.map (fun v => (⟨v, false⟩ : SrcRes V)) ++ [⟨none, false⟩] := by
  induction vs with
  | nil => rfl
  | cons v t ih => simp [peekWrap, ih]

/-! ### Claim theorems -/

/-- Claim C1 (amended).  For every non-consumed, non-dead engine over a
proper source (one that never attaches a value to its end signal and
never yields after reporting done), `peek()` returns the same value the
following `next()` returns, and the values returned by any number of
subsequent `next()` calls are exactly those that would have been
produced had the `peek()` not occurred.  (For sources outside this
class the subsequent stream can differ — see the counterexample.) -/
theorem peek_value_and_stream (vs : List (Option V)) (d c : Bool) :
    nexts 1 (⟨props vs, d, false, ⟨c, false⟩⟩ : Iter V)
        = [Except.ok ((⟨props vs, d, false, ⟨c, false⟩⟩ : Iter V).peek).1]
    ∧ ∀ n, nexts n ((⟨props vs, d, false, ⟨c, false⟩⟩ : Iter V).peek).2
        = nexts n (⟨props vs, d, false, ⟨c, false⟩⟩ : Iter V) := by
  cases vs with
  | nil =>
    refine ⟨by simp [nexts, Iter.next, Iter.peek, srcNext, props], ?_⟩
    intro n
    simp [Iter.peek, srcNext, props]
  | cons v t =>
    refine ⟨by simp [nexts, Iter.next, Iter.peek, srcNext, props], ?_⟩
    intro n
    have h : ((⟨props (v :: t), d, false, ⟨c, false⟩⟩ : Iter V).peek).2
        = ⟨props ((v :: t) ++ [none]), d, false, ⟨c, false⟩⟩ := by
      simp only [Iter.peek, props, List.map_cons, List.map_append,
        List.map_nil, srcNext, peekWrap_props]
      simp
    rw [h]
    exact nexts_pad (v :: t) c n d d

/-- Claim C1, counterexample.  Over the source `function* () { yield 1;
return 2; }` — a legitimate JS iterator whose end signal carries the
value 2 — `peek()` then `next()` both return 1, but the following
`next()` returns 2, whereas without the `peek()` it returns
`undefined`: the subsequent stream is not identical. -/
theorem peek_disturbs_stream_cex :
    ((⟨[⟨some 1, false⟩, ⟨some 2, true⟩], false, false, ⟨false, false⟩⟩ :
        Iter Int).peek).1 = some 1
    ∧ nexts 2 ((⟨[⟨some 1, false⟩, ⟨some 2, true⟩], false, false,
        ⟨false, false⟩⟩ : Iter Int).peek).2
      = [Except.ok (some 1), Except.ok (some 2)]
    ∧ nexts 2 (⟨[⟨some 1, false⟩, ⟨some 2, true⟩], false, false,
        ⟨false, false⟩⟩ : Iter Int)
      = [Except.ok (some 1), Except.ok none] := by
  exact ⟨rfl, rfl, rfl⟩

/-- Claim C2 (amended).  `next()` on an engine whose `consumed` flag is
set always throws the ConsumedError, before pulling the source. -/
theorem consumed_next_fails (s : Src V) (d : Bool) (f : Fused) :
    (⟨s, d, true, f⟩ : Iter V).next = Except.error JsError.consumedError := by
  simp [Iter.next]

/-- Claim C2, counterexample.  `peek()` performs no consumed check: on
a consumed engine over the source `[7]` it succeeds, returns 7, and has
pulled the value out of the underlying source (the replacement iterator
now replays it) — it does not fail with ConsumedError. -/
theorem consumed_peek_succeeds_cex :
    (⟨[⟨some 7, false⟩], false, true, ⟨false, false⟩⟩ : Iter Int).peek
      = (some 7, ⟨[⟨some 7, false⟩, ⟨none, false⟩], false, true,
          ⟨false, false⟩⟩) := by
  rfl

/-- Claim C3 (amended).  Once `fused.dead` is set, every subsequent
`next()` returns "end" without pulling the source, forever.  But after
`fuse()`, `dead` is set by a `next()` whose pulled **value** is
`undefined` — not by one that returns "end"; a pull whose `done` signal
carries a value returns "end" without setting `dead` (see the
counterexample). -/
theorem fuse_dead_semantics :
    (∀ (s : Src V) (d c : Bool),
      (⟨s, d, false, ⟨c, true⟩⟩ : Iter V).next
          = Except.ok (none, ⟨s, d, false, ⟨c, true⟩⟩)
      ∧ ∀ n, nexts n (⟨s, d, false, ⟨c, true⟩⟩ : Iter V)
          = List.replicate n (Except.ok none))
    ∧ (∀ (dn : Bool) (rest : Src V) (d : Bool),
      (⟨⟨none, dn⟩ :: rest, d, false, ⟨true, false⟩⟩ : Iter V).next
          = Except.ok (none, ⟨rest, dn, false, ⟨true, true⟩⟩)) := by
  refine ⟨fun s d c => ⟨next_dead s d c, nexts_of_dead s d c⟩, ?_⟩
  intro dn rest d
  cases dn <;> simp [Iter.next, srcNext]

/-- Claim C3, counterexample.  On a fused engine over `function* () {
return 1; /* then resumes */ }` modelled as the source `[{value: 1,
done: true}, {value: 2, done: false}]`, the first `next()` returns
"end" yet leaves `fused.dead` false (the pulled value 1 was defined),
and the second `next()` pulls the source again and returns 2. -/
theorem fuse_end_not_sticky_cex :
    ((⟨[⟨some 1, true⟩, ⟨some 2, false⟩], false, false, ⟨false, false⟩⟩ :
        Iter Int).fuse).next
      = Except.ok (none, ⟨[⟨some 2, false⟩], true, false, ⟨true, false⟩⟩)
    ∧ nexts 2 ((⟨[⟨some 1, true⟩, ⟨some 2, false⟩], false, false,
        ⟨false, false⟩⟩ : Iter Int).fuse)
      = [Except.ok none, Except.ok (some 2)] := by
  exact ⟨rfl, rfl⟩

/-- Claim C10 (confirmed).  Exhaustion is detected through the pulled
value being `undefined`, not the `done` signal: on a fused (called,
not yet dead), non-consumed engine whose source yields `{value:
undefined, done: false}`, `next()` returns "end" and permanently sets
`fused.dead`, and every subsequent `next()` returns "end" without
pulling, even though the rest of the source is still there. -/
theorem fused_undefined_value_dead (rest : Src V) (d : Bool) :
    (⟨⟨none, false⟩ :: rest, d, false, ⟨true, false⟩⟩ : Iter V).next
        = Except.ok (none, ⟨rest, false, false, ⟨true, true⟩⟩)
    ∧ ∀ n, nexts n (⟨rest, false, false, ⟨true, true⟩⟩ : Iter V)
        = List.replicate n (Except.ok none) := by
  exact ⟨by simp [Iter.next, srcNext], nexts_of_dead rest false true⟩

/-- `next` never changes the `consumed` flag: a successful pull leaves
it as it was (the flag is only read, never written, in `next`). -/
theorem next_consumed (it it2 : Iter V) (v : Option V)
    (h : it.next = Except.ok (v, it2)) : it2.consumed = it.consumed := by
  unfold Iter.next at h
  split at h
  · exact absurd h (by simp)
  · split at h
    · simp only [Except.ok.injEq, Prod.mk.injEq] at h
      rw [← h.2]
    · simp only [Except.ok.injEq, Prod.mk.injEq] at h
      rw [← h.2]

/-- If the `eq_by` loop returns `true`, it exited through the
exhaustion branch, which marks both engines consumed. -/
theorem eq_byF_true_consumed :
    ∀ (fuel : Nat) (f : Option V → Option V → Bool) (it ot it2 ot2 : Iter V),
      eq_byF fuel f it ot = some (Except.ok (true, it2, ot2)) →
        it2.consumed = true ∧ ot2.consumed = true := by
  intro fuel
  induction fuel with
  | zero =>
    intro f it ot it2 ot2 h
    rw [eq_byF] at h
    split at h
    · simp only [Option.some.injEq, Except.ok.injEq, Prod.mk.injEq] at h
      exact ⟨by rw [← h.2.1], by rw [← h.2.2]⟩
    · exact absurd h (by simp)
  | succ fuel ih =>
    intro f it ot it2 ot2 h
    rw [eq_byF] at h
    split at h
    · simp only [Option.some.injEq, Except.ok.injEq, Prod.mk.injEq] at h
      exact ⟨by rw [← h.2.1], by rw [← h.2.2]⟩
    · split at h
      · exact absurd h (by simp)
      · split at h
        · exact absurd h (by simp)
        · split at h
          · exact ih f _ _ it2 ot2 h
          · exact absurd h (by simp)

/-- If the `cmp_by` loop returns `0` under a comparator that never
produces `NaN`, it exited through the exhaustion branch, which marks
both engines consumed (an early return has a nonzero sign). -/
theorem cmp_byF_zero_consumed :
    ∀ (fuel : Nat) (c : Option V → Option V → Option Int) (it ot it2 ot2 : Iter V),
      (∀ a b, c a b ≠ none) →
      cmp_byF fuel c it ot = some (Except.ok (0, it2, ot2)) →
        it2.consumed = true ∧ ot2.consumed = true := by
  intro fuel
  induction fuel with
  | zero =>
    intro c it ot it2 ot2 _ h
    rw [cmp_byF] at h
    split at h
    · simp only [Option.some.injEq, Except.ok.injEq, Prod.mk.injEq] at h
      exact ⟨by rw [← h.2.1], by rw [← h.2.2]⟩
    · exact absurd h (by simp)
  | succ fuel ih =>
    intro c it ot it2 ot2 hnan h
    rw [cmp_byF] at h
    split at h
    · simp only [Option.some.injEq, Except.ok.injEq, Prod.mk.injEq] at h
      exact ⟨by rw [← h.2.1], by rw [← h.2.2]⟩
    · split at h
      · exact absurd h (by simp)
      · rename_i a it3 heq
        split at h
        · exact absurd h (by simp)
        · rename_i b ot3 heq2
          split at h
          · rename_i hne
            exfalso
            obtain ⟨k, hk⟩ := Option.ne_none_iff_exists'.mp (hnan a b)
            rw [hk] at h hne
            simp only [Option.some.injEq, Except.ok.injEq, Prod.mk.injEq] at h
            have hk0 : k = 0 := Int.sign_eq_zero_iff_zero.mp h.1
            exact hne (by rw [hk0])
          · exact ih c _ _ it2 ot2 hnan h

/-- Claim C4 (amended).  `zip` and `chain` mark both operand engines
consumed at call time.  `eq_by` and `cmp_by` mark both operands
consumed only when the lock-step loop concludes by exhaustion: whenever
`eq_by` returns `true`, and whenever `cmp_by` returns `0` under a
comparator that never yields `NaN`, both operands are consumed.  An
early not-equal or nonzero-ordering return, however, leaves both
`consumed` flags untouched (see the counterexample). -/
theorem binary_combinators_consumed :
    (∀ (it : Iter V) (ot : Iter U),
      ((it.zip ot).2.1).consumed = true ∧ ((it.zip ot).2.2).consumed = true)
    ∧ (∀ (it ot : Iter V),
      ((it.chain ot).2.1).consumed = true ∧ ((it.chain ot).2.2).consumed = true)
    ∧ (∀ (fuel : Nat) (f : Option V → Option V → Bool) (it ot it2 ot2 : Iter V),
      eq_byF fuel f it ot = some (Except.ok (true, it2, ot2)) →
        it2.consumed = true ∧ ot2.consumed = true)
    ∧ (∀ (fuel : Nat) (c : Option V → Option V → Option Int) (it ot it2 ot2 : Iter V),
      (∀ a b, c a b ≠ none) →
      cmp_byF fuel c it ot = some (Except.ok (0, it2, ot2)) →
        it2.consumed = true ∧ ot2.consumed = true) :=
  ⟨fun _ _ => ⟨rfl, rfl⟩, fun _ _ => ⟨rfl, rfl⟩,
   eq_byF_true_consumed, cmp_byF_zero_consumed⟩

/-- Claim C4, witness: a completed `eq_by` over `[1]` vs `[1]` and a
completed `cmp_by` over the same (relational comparator, never `NaN`)
both end with the operands marked consumed. -/
theorem binary_combinators_consumed_witness :
    eq_byF 3 (fun a b => a == b) (pstate [some (1:Int)] false)
        (pstate [some 1] false)
      = some (Except.ok (true, ⟨[], true, true, ⟨false, false⟩⟩,
          ⟨[], true, true, ⟨false, false⟩⟩))
    ∧ (⟨[], true, true, ⟨false, false⟩⟩ : Iter Int).consumed = true
    ∧ (⟨[], true, true, ⟨false, false⟩⟩ : Iter Int).consumed = true := by
  have hpre : eq_byF 3 (fun a b => a == b) (pstate [some (1:Int)] false)
      (pstate [some 1] false)
      = some (Except.ok (true, (⟨[], true, true, ⟨false, false⟩⟩ : Iter Int),
          ⟨[], true, true, ⟨false, false⟩⟩)) := rfl
  have hpre2 : cmp_byF 3 relCmp (pstate [some (1:Int)] false)
      (pstate [some 1] false)
      = some (Except.ok (0, (⟨[], true, true, ⟨false, false⟩⟩ : Iter Int),
          ⟨[], true, true, ⟨false, false⟩⟩)) := rfl
  refine ⟨hpre, ?_, ?_⟩
  · exact ((@binary_combinators_consumed Int Int).2.2.1 3 (fun a b => a == b)
      (pstate [some (1:Int)] false) (pstate [some 1] false)
      ⟨[], true, true, ⟨false, false⟩⟩ ⟨[], true, true, ⟨false, false⟩⟩ hpre).1
  · exact ((@binary_combinators_consumed Int Int).2.2.2 3 relCmp
      (pstate [some (1:Int)] false) (pstate [some 1] false)
      ⟨[], true, true, ⟨false, false⟩⟩ ⟨[], true, true, ⟨false, false⟩⟩
      (by intro a b; cases a <;> cases b <;> simp [relCmp]) hpre2).2

/-- Claim C4, counterexample.  `eq_by` over `[1]` vs `[2]` returns its
early not-equal result with **both** operand engines still not
consumed, contradicting the claim that both are marked consumed after
any result. -/
theorem eq_by_early_return_not_consumed_cex :
    Iter.eq_by (pstate [some (1:Int)] false) (pstate [some 2] false)
        (fun a b => a == b)
      = some (Except.ok (false, ⟨[], false, false, ⟨false, false⟩⟩,
          ⟨[], false, false, ⟨false, false⟩⟩))
    ∧ (⟨[], false, false, ⟨false, false⟩⟩ : Iter Int).consumed = false := by
  exact ⟨rfl, rfl⟩

/-- The `collect` loop marks the engine consumed on every successful
return (the exit branch writes the flag). -/
theorem collectF_consumed :
    ∀ (fuel : Nat) (it : Iter V) (acc l : List (Option V)) (it2 : Iter V),
      collectF fuel it acc = some (Except.ok (l, it2)) → it2.consumed = true := by
  intro fuel
  induction fuel with
  | zero =>
    intro it acc l it2 h
    rw [collectF] at h
    split at h
    · simp only [Option.some.injEq, Except.ok.injEq, Prod.mk.injEq] at h
      rw [← h.2]
    · exact absurd h (by simp)
  | succ fuel ih =>
    intro it acc l it2 h
    rw [collectF] at h
    split at h
    · simp only [Option.some.injEq, Except.ok.injEq, Prod.mk.injEq] at h
      rw [← h.2]
    · split at h
      · exact absurd h (by simp)
      · exact ih _ _ l it2 h

/-- The `fold` loop marks the engine consumed on every successful
return. -/
theorem foldF_consumed {A : Type} :
    ∀ (fuel : Nat) (f : A → Option V → A) (acc : A) (it : Iter V) (r : A) (it2 : Iter V),
      foldF fuel f acc it = some (Except.ok (r, it2)) → it2.consumed = true := by
  intro fuel
  induction fuel with
  | zero => intro f acc it r it2 h; exact absurd h (by simp [foldF])
  | succ fuel ih =>
    intro f acc it r it2 h
    rw [foldF] at h
    split at h
    · exact absurd h (by simp)
    · split at h
      · simp only [Option.some.injEq, Except.ok.injEq, Prod.mk.injEq] at h
        rw [← h.2]
      · exact ih f _ _ r it2 h

/-- The `last` loop never writes the `consumed` flag: a successful run
leaves it exactly as it was. -/
theorem lastF_consumed :
    ∀ (fuel : Nat) (lst itm : Option V) (it : Iter V) (v : Option V) (it2 : Iter V),
      lastF fuel lst itm it = some (Except.ok (v, it2)) →
        it2.consumed = it.consumed := by
  intro fuel
  induction fuel with
  | zero =>
    intro lst itm it v it2 h
    rw [lastF] at h
    split at h
    · simp only [Option.some.injEq, Except.ok.injEq, Prod.mk.injEq] at h
      rw [← h.2]
    · exact absurd h (by simp)
  | succ fuel ih =>
    intro lst itm it v it2 h
    rw [lastF] at h
    split at h
    · simp only [Option.some.injEq, Except.ok.injEq, Prod.mk.injEq] at h
      rw [← h.2]
    · split at h
      · exact absurd h (by simp)
      · rename_i v2 it3 heq
        exact (ih _ _ _ v it2 h).trans (next_consumed it it3 v2 heq)

/-- The `all` loop never writes the `consumed` flag. -/
theorem allF_consumed :
    ∀ (fuel : Nat) (f : Option V → Bool) (item : Option V) (it : Iter V)
      (b : Bool) (it2 : Iter V),
      allF fuel f item it = some (Except.ok (b, it2)) →
        it2.consumed = it.consumed := by
  intro fuel
  induction fuel with
  | zero =>
    intro f item it b it2 h
    rw [allF] at h
    split at h
    · simp only [Option.some.injEq, Except.ok.injEq, Prod.mk.injEq] at h
      rw [← h.2]
    · split at h
      · simp only [Option.some.injEq, Except.ok.injEq, Prod.mk.injEq] at h
        rw [← h.2]
      · exact absurd h (by simp)
  | succ fuel ih =>
    intro f item it b it2 h
    rw [allF] at h
    split at h
    · simp only [Option.some.injEq, Except.ok.injEq, Prod.mk.injEq] at h
      rw [← h.2]
    · split at h
      · simp only [Option.some.injEq, Except.ok.injEq, Prod.mk.injEq] at h
        rw [← h.2]
      · split at h
        · exact absurd h (by simp)
        · rename_i v2 it3 heq
          exact (ih f _ _ b it2 h).trans (next_consumed it it3 v2 heq)

/-- Claim C5 (amended).  `collect` and `fold` (and the terminals built
on them: `count`, `collect_into`, `sum`, `product`, `for_each`) leave
the drained engine with `consumed = true`.  But `last` and `all` (and
likewise `any`) never write the flag: they leave `consumed` exactly as
it was, so a later `next()` on an engine drained by them does **not**
fail with ConsumedError (see the counterexample). -/
theorem terminal_consumed_flags :
    (∀ (it : Iter V) (l : List (Option V)) (it2 : Iter V),
      it.collect = some (Except.ok (l, it2)) → it2.consumed = true)
    ∧ (∀ (A : Type) (it : Iter V) (init : A) (f : A → Option V → A) (r : A) (it2 : Iter V),
      it.fold init f = some (Except.ok (r, it2)) → it2.consumed = true)
    ∧ (∀ (it : Iter V) (v : Option V) (it2 : Iter V),
      it.last = some (Except.ok (v, it2)) → it2.consumed = it.consumed)
    ∧ (∀ (it : Iter V) (f : Option V → Bool) (b : Bool) (it2 : Iter V),
      it.all f = some (Except.ok (b, it2)) → it2.consumed = it.consumed) := by
  refine ⟨fun it l it2 h => collectF_consumed _ it [] l it2 h,
    fun A it init f r it2 h => foldF_consumed _ f init it r it2 h,
    fun it v it2 h => lastF_consumed _ none none it v it2 h, ?_⟩
  intro it f b it2 h
  unfold Iter.all at h
  split at h
  · exact absurd h (by simp)
  · rename_i v2 it3 heq
    exact (allF_consumed _ f _ _ b it2 h).trans (next_consumed it it3 v2 heq)

/-- Claim C5, witness: `collect` over `[1]` ends with the engine
consumed; `last` over `[1, 2]` ends with the flag equal to its starting
value (false). -/
theorem terminal_consumed_flags_witness :
    (⟨[], true, true, ⟨false, false⟩⟩ : Iter Int).consumed = true
    ∧ (⟨[], true, false, ⟨false, false⟩⟩ : Iter Int).consumed
        = (pstate [some (1:Int), some 2] false).consumed := by
  refine ⟨?_, ?_⟩
  · exact terminal_consumed_flags.1 (pstate [some (1:Int)] false) [some 1]
      ⟨[], true, true, ⟨false, false⟩⟩ rfl
  · exact terminal_consumed_flags.2.2.1 (pstate [some (1:Int), some 2] false)
      (some 2) ⟨[], true, false, ⟨false, false⟩⟩ rfl

/-- Claim C5, counterexample.  `last` over `[1, 2]` returns 2 but
leaves `consumed = false`, and the next `next()` on the drained engine
succeeds (returning "end") instead of failing with ConsumedError. -/
theorem last_leaves_unconsumed_cex :
    Iter.last (pstate [some (1:Int), some 2] false)
      = some (Except.ok (some 2, ⟨[], true, false, ⟨false, false⟩⟩))
    ∧ (⟨[], true, false, ⟨false, false⟩⟩ : Iter Int).next
      = Except.ok (none, ⟨[], true, false, ⟨false, false⟩⟩) := by
  exact ⟨rfl, rfl⟩

/-- The counting loop of `advance_by` on a fresh engine over `m`
values: `rem ≤ m + 1` iterations run to completion ("fully advanced"),
while more iterations stop at counter `i + m + 1`, one past the element
count, because the loop only observes `done` on the check **after** the
pull that hit the end. -/
theorem advanceF_pstate (vs : List (Option V)) :
    ∀ (i rem : Nat),
      (rem ≤ vs.length + 1 →
        ∃ st, advanceF i rem (pstate vs false) = Except.ok (none, st))
      ∧ (vs.length + 1 < rem →
        ∃ st, advanceF i rem (pstate vs false)
            = Except.ok (some (i + vs.length + 1), st)) := by
  induction vs with
  | nil =>
    intro i rem
    rcases rem with _ | _ | r
    · exact ⟨fun _ => ⟨pstate [] false, rfl⟩,
        fun h => absurd h (by simp only [List.length_nil]; omega)⟩
    · refine ⟨fun _ => ⟨⟨[], true, false, ⟨false, false⟩⟩, ?_⟩,
        fun h => absurd h (by simp only [List.length_nil]; omega)⟩
      simp [advanceF, pstate, props, Iter.next, srcNext]
    · refine ⟨fun h => absurd h (by simp only [List.length_nil]; omega),
        fun _ => ⟨⟨[], true, false, ⟨false, false⟩⟩, ?_⟩⟩
      simp [advanceF, pstate, props, Iter.next, srcNext]
  | cons v t ih =>
    intro i rem
    rcases rem with _ | r
    · exact ⟨fun _ => ⟨pstate (v :: t) false, rfl⟩, fun h => absurd h (by omega)⟩
    · have hstep : advanceF i (r + 1) (pstate (v :: t) false)
          = advanceF (i + 1) r (pstate t false) := by
        simp [advanceF, pstate, props, Iter.next, srcNext]
      constructor
      · intro hrem
        obtain ⟨st, hst⟩ := (ih (i + 1) r).1
          (by simp only [List.length_cons] at hrem; omega)
        exact ⟨st, by rw [hstep]; exact hst⟩
      · intro hrem
        obtain ⟨st, hst⟩ := (ih (i + 1) r).2
          (by simp only [List.length_cons] at hrem; omega)
        refine ⟨st, ?_⟩
        rw [hstep, hst]
        have h3 : i + 1 + t.length + 1 = i + (v :: t).length + 1 := by
          simp only [List.length_cons]; omega
        rw [h3]

/-- Claim C6 (amended).  On a fresh engine over `m` remaining elements
and an integer `n`: negative `n` fails with InvalidArgument;
`advance_by(n)` returns "fully advanced" (`undefined`) whenever
`n ≤ m + 1` — including `n = m + 1`, where only `m` real steps exist —
and for `n > m + 1` it returns `m + 1`, one **more** than the number of
elements, because detecting exhaustion itself consumes a loop step.
(The claim's `m >= n` / returns-`m` split is off by one — see the
counterexample.) -/
theorem advance_by_exhaustion (vs : List (Option V)) (n : Int) :
    (n < 0 →
      Iter.advance_by (pstate vs false) n = Except.error JsError.invalidArgument)
    ∧ (0 ≤ n → n.toNat ≤ vs.length + 1 →
      (Iter.advance_by (pstate vs false) n).map Prod.fst = Except.ok none)
    ∧ (vs.length + 1 < n.toNat →
      (Iter.advance_by (pstate vs false) n).map Prod.fst
        = Except.ok (some (vs.length + 1))) := by
  refine ⟨fun h => by simp [Iter.advance_by, h], ?_, ?_⟩
  · intro h0 hle
    obtain ⟨st, hst⟩ := (advanceF_pstate vs 0 n.toNat).1 hle
    simp [Iter.advance_by, not_lt.mpr h0, hst, Except.map]
  · intro hlt
    have h0 : ¬ n < 0 := by omega
    obtain ⟨st, hst⟩ := (advanceF_pstate vs 0 n.toNat).2 hlt
    simp [Iter.advance_by, h0, hst, Except.map]

/-- Claim C6, witness: on `[5]` (one element), `advance_by(3)` returns
2, `advance_by(2)` is already "fully advanced", and `advance_by(-1)`
fails with InvalidArgument. -/
theorem advance_by_exhaustion_witness :
    (Iter.advance_by (pstate [some (5:Int)] false) 3).map Prod.fst
        = Except.ok (some 2)
    ∧ (Iter.advance_by (pstate [some (5:Int)] false) 2).map Prod.fst
        = Except.ok none
    ∧ Iter.advance_by (pstate [some (5:Int)] false) (-1)
        = Except.error JsError.invalidArgument := by
  refine ⟨?_, ?_, ?_⟩
  · have h := (advance_by_exhaustion [some (5:Int)] 3).2.2 (by decide)
    simpa using h
  · exact (advance_by_exhaustion [some (5:Int)] 2).2.1 (by decide) (by decide)
  · exact (advance_by_exhaustion [some (5:Int)] (-1)).1 (by decide)

/-- Claim C6, counterexample.  On one remaining element (`m = 1`) and
`n = 3 > m`, `advance_by` returns 2, not the claimed `m = 1`: the step
that discovers exhaustion is counted too. -/
theorem advance_by_count_cex :
    Iter.advance_by (pstate [some (5:Int)] false) 3
        = Except.ok (some 2, ⟨[], true, false, ⟨false, false⟩⟩)
    ∧ (2 : Nat) ≠ 1 := by
  exact ⟨rfl, by decide⟩

/-- Claim C7 (amended).  `eq([1,2], [1,2,3])` is false (the boundary
comparison `deepEqual(undefined, 3)` fails).  But `cmp_by` over the
same with the standard subtraction comparator returns 0 ("equal"), not
-1: the boundary comparison `undefined - 3` is `NaN`, which `cmp_by`
returns early as 0.  The "shorter self compares less" tie-break applies
only under a comparator that reports 0 at the exhausted boundary, such
as the relational three-way comparator, which indeed yields -1. -/
theorem cmp_eq_prefix_behaviour :
    Iter.eq (pstate [some (1:Int), some 2] false)
        (pstate [some 1, some 2, some 3] false)
      = some (Except.ok (false, ⟨[], true, false, ⟨false, false⟩⟩,
          ⟨[], false, false, ⟨false, false⟩⟩))
    ∧ Iter.cmp_by (pstate [some (1:Int), some 2] false)
        (pstate [some 1, some 2, some 3] false) subCmp
      = some (Except.ok (0, ⟨[], true, false, ⟨false, false⟩⟩,
          ⟨[], false, false, ⟨false, false⟩⟩))
    ∧ Iter.cmp_by (pstate [some (1:Int), some 2] false)
        (pstate [some 1, some 2, some 3] false) relCmp
      = some (Except.ok (-1, ⟨[], true, true, ⟨false, false⟩⟩,
          ⟨[], false, true, ⟨false, false⟩⟩)) := by
  exact ⟨rfl, rfl, rfl⟩

/-- Claim C7, counterexample.  `cmp_by([1,2], [1,2,3])` with the
standard numeric comparator `(a, b) => a - b` returns 0, not the
claimed -1: `undefined - 3` is `NaN`, treated as "equal" and returned
early. -/
theorem cmp_by_nan_equal_cex :
    Iter.cmp_by (pstate [some (1:Int), some 2] false)
        (pstate [some 1, some 2, some 3] false) subCmp
      = some (Except.ok (0, ⟨[], true, false, ⟨false, false⟩⟩,
          ⟨[], false, false, ⟨false, false⟩⟩))
    ∧ (0 : Int) ≠ -1 := by
  exact ⟨rfl, by decide⟩

/-- The skip phase of `skip_while` on a proper source stops at the
first value failing the predicate (returning it with `done = false`),
or at the exhausted pull (`{undefined, done: true}`) when every value
satisfies it. -/
theorem skipWhilePhase1_props (p : Option V → Bool) (vs : List (Option V)) :
    skipWhilePhase1 p (props vs)
      = (match vs.dropWhile p with
         | [] => ((⟨none, true⟩ : SrcRes V), ([] : Src V))
         | x :: r => (⟨x, false⟩, props r)) := by
  induction vs with
  | nil => rfl
  | cons v t ih =>
    cases hp : p v with
    | true => simpa [skipWhilePhase1, props, List.dropWhile_cons, hp] using ih
    | false => simp [skipWhilePhase1, props, List.dropWhile_cons, hp]

/-- One step of the emit loop over a proper source: pull the head
value, then continue with the toggled `consumed` flag and prepend. -/
theorem drainF_cons_step (fuel : Nat) (v : Option V) (s : Src V) (d c : Bool) :
    drainF (fuel + 1) (⟨⟨v, false⟩ :: s, d, c, ⟨false, false⟩⟩ : Iter V)
      = (drainF fuel ⟨s, false, true, ⟨false, false⟩⟩).map
          (fun res => res.map (fun l => v :: l)) := rfl

/-- The emit phase of `skip_while` on a non-fused engine over a proper
source yields exactly the remaining values. -/
theorem drainF_props (vs : List (Option V)) :
    ∀ (d c : Bool),
      drainF (vs.length + 1) (⟨props vs, d, c, ⟨false, false⟩⟩ : Iter V)
        = some (Except.ok vs) := by
  induction vs with
  | nil => intro d c; simp [drainF, Iter.next, srcNext, props]
  | cons v t ih =>
    intro d c
    show drainF (t.length + 1 + 1)
        (⟨(⟨v, false⟩ : SrcRes V) :: props t, d, c, ⟨false, false⟩⟩ : Iter V) = _
    rw [drainF_cons_step, ih false true]
    rfl

/-- Claim C8 (amended).  On a fresh engine over a proper source,
`skip_while(p)` yields the suffix beginning at the first element
failing `p` — that element and all subsequent ones, untested and
unfiltered.  But when every element satisfies `p` (or the sequence is
empty), the result is a one-element stream holding `undefined`, not an
empty stream: the generator yields the stopping pull's value
unconditionally, even when that pull was the end signal. -/
theorem skip_while_suffix (vs : List (Option V)) (p : Option V → Bool) :
    (pstate vs false).skip_while p
      = some (pstate (match vs.dropWhile p with
          | [] => [none]
          | x :: r => x :: r) false) := by
  cases hd : vs.dropWhile p with
  | nil =>
    have h1 : skipWhilePhase1 p (props vs) = (⟨none, true⟩, ([] : Src V)) := by
      rw [skipWhilePhase1_props, hd]
    have h2 : drainF (List.length ([] : Src V) + 1)
        (⟨[], false, false, ⟨false, false⟩⟩ : Iter V) = some (Except.ok []) :=
      drainF_props [] false false
    simp only [pstate, Iter.skip_while, h1]
    rw [h2]
    simp [props]
  | cons x r =>
    have h1 : skipWhilePhase1 p (props vs) = (⟨x, false⟩, props r) := by
      rw [skipWhilePhase1_props, hd]
    have h2 : drainF (List.length (props r) + 1)
        (⟨props r, false, false, ⟨false, false⟩⟩ : Iter V)
        = some (Except.ok r) := by
      simpa [props, List.length_map] using drainF_props r false false
    simp only [pstate, Iter.skip_while, h1]
    rw [h2]
    simp [props]

/-- Claim C8, counterexample.  `skip_while` over `[1, 2]` with the
always-true predicate produces a stream holding a single `undefined`
element — its `collect` is `[undefined]`, not the claimed empty
sequence. -/
theorem skip_while_all_true_cex :
    Iter.skip_while (pstate [some (1:Int), some 2] false) (fun _ => true)
        = some (pstate [none] false)
    ∧ Iter.collect (pstate [(none : Option Int)] false)
        = some (Except.ok ([none], ⟨[], true, true, ⟨false, false⟩⟩))
    ∧ ([(none : Option Int)] : List (Option Int)) ≠ [] := by
  exact ⟨rfl, rfl, by decide⟩

/-- The skipping loop of `nth` on a fresh engine over a proper source
drops exactly the first `k` values. -/
theorem nthSkip_pstate (k : Nat) :
    ∀ (vs : List (Option V)) (d : Bool), ∃ d2,
      nthSkip k (pstate vs d) = Except.ok (pstate (vs.drop k) d2) := by
  induction k with
  | zero => intro vs d; exact ⟨d, rfl⟩
  | succ k ih =>
    intro vs d
    cases vs with
    | nil =>
      obtain ⟨d2, h2⟩ := ih ([] : List (Option V)) true
      refine ⟨d2, ?_⟩
      simpa [nthSkip, pstate, props, Iter.next, srcNext] using h2
    | cons v t =>
      obtain ⟨d2, h2⟩ := ih t false
      refine ⟨d2, ?_⟩
      simpa [nthSkip, pstate, props, Iter.next, srcNext] using h2

/-- `getD` through `drop`: the `k`-th value of a list (default
`none`) is the head of its `k`-dropped suffix. -/
theorem getD_drop (vs : List (Option V)) :
    ∀ k, vs.getD k none
      = (match vs.drop k with
         | [] => none
         | h :: _ => h) := by
  induction vs with
  | nil => intro k; cases k <;> rfl
  | cons v t ih =>
    intro k
    cases k with
    | zero => rfl
    | succ k => simpa [List.getD_cons_succ, List.drop_succ_cons] using ih k

/-- Claim C9 (confirmed).  On a fresh engine over a proper source,
`nth(n)` (for non-negative integer `n`, here a `Nat` cast) advances by
`max(n - 1, 0)` positions and returns the following `next()`: the value
at zero-based index `max(n - 1, 0)` (or `undefined` past the end).  In
particular `nth(0)` and `nth(1)` both return the first element. -/
theorem nth_index (vs : List (Option V)) (k : Nat) :
    (Iter.nth (pstate vs false) (k : Int)).map Prod.fst
      = Except.ok (vs.getD (k - 1) none) := by
  have hneg : ¬ ((k : Int) < 0) := by omega
  have htn : ((k : Int) - 1).toNat = k - 1 := by omega
  unfold Iter.nth
  rw [if_neg hneg, htn]
  obtain ⟨d2, h2⟩ := nthSkip_pstate (k - 1) vs false
  rw [h2, getD_drop vs (k - 1)]
  cases hl : vs.drop (k - 1) with
  | nil => simp [pstate, props, Iter.next, srcNext, Except.map]
  | cons h t => simp [pstate, props, Iter.next, srcNext, Except.map]

end Rstd
